import Mathlib

/-!
Shallow embedding of the user-authentication service
(`0x03-user_authentication_service`: `user.py`, `db.py`, `auth.py`) and of the
Basic-Auth extractor (`0x01-Basic_authentication/api/v1/auth`), together with
theorems settling the spec claims about them.
-/

set_option linter.unusedVariables false

namespace UserAuth

/-- Modelled from the spec: bcrypt is an external library (`bcrypt.hashpw` /
`bcrypt.checkpw`), not part of this repository.  The spec's contract is that
hashing is salted (two calls differ via the salt) and `verify(p, hash(p))` is
true while `verify(p2, hash(p1))` is false for `p2 ≠ p1`.  A hash is modelled
as the pair of the hashed password and the salt drawn by `gensalt()`. -/
structure Hash where
  pwd : String
  salt : Nat
  deriving DecidableEq, Repr

/-- Model of `_hash_password` (auth.py): `bcrypt.hashpw(password.encode, gensalt())`.
The salt produced by `gensalt()` is passed explicitly. -/
def hashpw (password : String) (salt : Nat) : Hash :=
  ⟨password, salt⟩

/-- Model of `bcrypt.checkpw(password, hash)`: true iff `password` is the
password that produced `hash`. -/
def checkpw (password : String) (h : Hash) : Bool :=
  password == h.pwd

/-- The `users` table row (`user.py`): `id` integer primary key (autoincrement),
`email` and `hashed_password` non-nullable, `session_id` and `reset_token`
nullable.  Note that no column carries a UNIQUE constraint. -/
structure User where
  id : Nat
  email : String
  hashed_password : Hash
  session_id : Option String
  reset_token : Option String
  deriving DecidableEq, Repr

/-- The store state: the rows of the `users` table in insertion order plus the
next autoincrement id (SQLite starts at 1). -/
structure DBState where
  users : List User
  next_id : Nat
  deriving DecidableEq, Repr

/-- The fresh store built by `DB.__init__` (drops and recreates all tables). -/
def initDB : DBState :=
  ⟨[], 1⟩

/-- The exceptions raised by the embedded code: sqlalchemy's
`InvalidRequestError` (carrying the offending filter key), sqlalchemy's
`NoResultFound`, and Python's `ValueError` (carrying its message). -/
inductive Err where
  | invalidRequest (key : String)
  | noResultFound
  | valueError (msg : String)
  deriving DecidableEq, Repr

/-- A keyword filter passed to `DB.find_user_by`: one of the five recognized
`User` attributes with a value of the column's type, or an unrecognized
attribute name (`other`). -/
inductive Filter where
  | id (v : Nat)
  | email (v : String)
  | hashed_password (v : Hash)
  | session_id (v : Option String)
  | reset_token (v : Option String)
  | other (key : String)
  deriving DecidableEq, Repr

/-- The keyword name of a filter, as tested by `hasattr(User, key)`. -/
def Filter.key : Filter → String
  | .id _ => "id"
  | .email _ => "email"
  | .hashed_password _ => "hashed_password"
  | .session_id _ => "session_id"
  | .reset_token _ => "reset_token"
  | .other k => k

/-- Whether the filter key fails the `hasattr(User, key)` test. -/
def Filter.isOther : Filter → Bool
  | .other _ => true
  | _ => false

/-- One conjunct of the SQL `WHERE (cols) IN ((vals))` match built by
`find_user_by`.  SQL equality with NULL is never true: a NULL filter value
matches no row, and a NULL column value matches no filter value, which the
nullable-column cases reflect.  An unrecognized key never reaches the query
(`find_user_by` raises first). -/
def matchFilter (u : User) : Filter → Bool
  | .id v => u.id == v
  | .email v => u.email == v
  | .hashed_password v => u.hashed_password == v
  | .session_id v =>
    match v, u.session_id with
    | some s, some t => t == s
    | _, _ => false
  | .reset_token v =>
    match v, u.reset_token with
    | some s, some t => t == s
    | _, _ => false
  | .other _ => false

/-- The first filter key rejected by the `hasattr` validation loop of
`find_user_by`, if any. -/
def firstInvalidKey (fs : List Filter) : Option String :=
  (fs.find? Filter.isOther).map Filter.key

/-- `query(...).first()` followed by the `None` check: `NoResultFound` when no
row matches. -/
def optToRes : Option User → Except Err User
  | some u => .ok u
  | none => .error Err.noResultFound

/-- `DB.find_user_by(**filters)`: validates every filter key against the
`User` model, raising `InvalidRequestError` at the first unrecognized key;
otherwise returns the first row matching the conjunction of the filters, or
raises `NoResultFound`. -/
def find_user_by (db : DBState) (filters : List Filter) : Except Err User :=
  match firstInvalidKey filters with
  | some k => .error (Err.invalidRequest k)
  | none => optToRes (db.users.find? (fun u => filters.all (matchFilter u)))

/-- `DB.add_user(email, hashed_password)`: constructs the row, adds and
commits it, and returns it.  The schema has no unique constraint, so on
well-typed input the insert cannot fail and the `except` branch (which would
roll back and return `None`) is unreachable. -/
def add_user (db : DBState) (email : String) (hp : Hash) : User × DBState :=
  let u : User := ⟨db.next_id, email, hp, none, none⟩
  (u, ⟨db.users ++ [u], db.next_id + 1⟩)

/-- A keyword update passed to `DB.update_user`: one of the five recognized
attributes with a new value, or an unrecognized attribute name. -/
inductive Assign where
  | id (v : Nat)
  | email (v : String)
  | hashed_password (v : Hash)
  | session_id (v : Option String)
  | reset_token (v : Option String)
  | other (key : String)
  deriving DecidableEq, Repr

/-- The keyword name of an update entry. -/
def Assign.key : Assign → String
  | .id _ => "id"
  | .email _ => "email"
  | .hashed_password _ => "hashed_password"
  | .session_id _ => "session_id"
  | .reset_token _ => "reset_token"
  | .other k => k

/-- Whether the update key fails the `hasattr(User, key)` test. -/
def Assign.isOther : Assign → Bool
  | .other _ => true
  | _ => false

/-- Applying one column assignment to a row. -/
def setField (u : User) : Assign → User
  | .id v => { u with id := v }
  | .email v => { u with email := v }
  | .hashed_password v => { u with hashed_password := v }
  | .session_id v => { u with session_id := v }
  | .reset_token v => { u with reset_token := v }
  | .other _ => u

/-- The accumulated `update_data` applied to a row; Python's `**kwargs` dict
iterates in order with unique keys, and later entries overwrite earlier ones
exactly as the left fold does. -/
def applyAssigns (u : User) (kwargs : List Assign) : User :=
  kwargs.foldl setField u

/-- The first update key rejected by the `hasattr` validation loop of
`update_user`, if any. -/
def firstInvalidAssign (kwargs : List Assign) : Option String :=
  (kwargs.find? Assign.isOther).map Assign.key

/-- `DB.update_user(user_id, **kwargs)`: looks the user up by id with
`find_user_by` — whose `NoResultFound` propagates, making the source's
`if user is None: return` branch unreachable — then validates every update
key, raising `ValueError` at the first unrecognized one before any mutation,
and finally updates every row whose id matches and commits.  The state is
threaded through so that a raised exception leaves it unchanged. -/
def update_user (db : DBState) (user_id : Nat) (kwargs : List Assign) :
    Except Err Unit × DBState :=
  match find_user_by db [Filter.id user_id] with
  | .error e => (.error e, db)
  | .ok _ =>
    match firstInvalidAssign kwargs with
    | some k => (.error (Err.valueError ("Invalid attribute: " ++ k)), db)
    | none =>
      (.ok (),
       ⟨db.users.map (fun u => if u.id == user_id then applyAssigns u kwargs else u),
        db.next_id⟩)

/-- `Auth.register_user(email, password)` (auth.py): tries
`find_user_by(email=email)`; if a user is found it raises
`ValueError(f"User ... already exists")` (raised inside the `try`, but not a
`NoResultFound`, so it propagates); on `NoResultFound` it hashes the password
and adds the user.  `_generate_uuid`-style nondeterminism does not occur here;
the `gensalt()` draw is the explicit `salt` argument.  The state is threaded
so a raised exception leaves it unchanged. -/
def register_user (db : DBState) (email password : String) (salt : Nat) :
    Except Err User × DBState :=
  match find_user_by db [Filter.email email] with
  | .ok _ => (.error (Err.valueError ("User " ++ email ++ " already exists")), db)
  | .error Err.noResultFound =>
    let r := add_user db email (hashpw password salt)
    (.ok r.1, r.2)
  | .error e => (.error e, db)

/-- `Auth.valid_login(email, password)`: finds the user by email and checks
the password against the stored hash; `NoResultFound` is caught and becomes
`False`.  (For the single `email` filter no other exception can occur.) -/
def valid_login (db : DBState) (email password : String) : Bool :=
  match find_user_by db [Filter.email email] with
  | .ok u => checkpw password u.hashed_password
  | .error _ => false

/-- `Auth.create_session(email)`: `NoResultFound` from the email lookup is
caught and yields `None`; otherwise a fresh uuid (the explicit `uuid`
argument, standing for `_generate_uuid()`) is stored as the session id via
`update_user`, whose exceptions would propagate. -/
def create_session (db : DBState) (email : String) (uuid : String) :
    Except Err (Option String) × DBState :=
  match find_user_by db [Filter.email email] with
  | .error Err.noResultFound => (.ok none, db)
  | .error e => (.error e, db)
  | .ok u =>
    match update_user db u.id [Assign.session_id (some uuid)] with
    | (.ok _, db2) => (.ok (some uuid), db2)
    | (.error e, db2) => (.error e, db2)

/-- `Auth.get_user_from_session_id(session_id)`: `if not session_id` — both
`None` and the empty string are falsy — returns `None` without querying the
store; otherwise looks up by `session_id`, turning `NoResultFound` into
`None`. -/
def get_user_from_session_id (db : DBState) (session_id : Option String) :
    Option User :=
  match session_id with
  | none => none
  | some s =>
    if s == "" then none
    else
      match find_user_by db [Filter.session_id (some s)] with
      | .ok u => some u
      | .error _ => none

/-- `Auth.destroy_session(user_id)`: `if user_id:` — a falsy id (`None` or
`0`) makes the call a no-op; otherwise the session id is cleared via
`update_user`. -/
def destroy_session (db : DBState) (user_id : Option Nat) :
    Except Err Unit × DBState :=
  match user_id with
  | none => (.ok (), db)
  | some 0 => (.ok (), db)
  | some uid => update_user db uid [Assign.session_id none]

/-- `Auth.get_reset_password_token(email)`: `NoResultFound` from the email
lookup is re-raised as `ValueError("User not found")`; otherwise a fresh uuid
(the explicit `uuid` argument) is stored as the reset token. -/
def get_reset_password_token (db : DBState) (email : String) (uuid : String) :
    Except Err String × DBState :=
  match find_user_by db [Filter.email email] with
  | .error Err.noResultFound => (.error (Err.valueError "User not found"), db)
  | .error e => (.error e, db)
  | .ok u =>
    match update_user db u.id [Assign.reset_token (some uuid)] with
    | (.ok _, db2) => (.ok uuid, db2)
    | (.error e, db2) => (.error e, db2)

/-- `Auth.update_password(reset_token, password)`: `NoResultFound` from the
reset-token lookup is re-raised as `ValueError("Invalid reset token")`;
otherwise the new hash is stored and the reset token cleared in the single
`update_user` call. -/
def update_password (db : DBState) (reset_token : Option String)
    (password : String) (salt : Nat) : Except Err Unit × DBState :=
  match find_user_by db [Filter.reset_token reset_token] with
  | .error Err.noResultFound => (.error (Err.valueError "Invalid reset token"), db)
  | .error e => (.error e, db)
  | .ok u =>
    update_user db u.id
      [Assign.hashed_password (hashpw password salt), Assign.reset_token none]

/-! The Basic-Auth variant (`0x01-Basic_authentication/api/v1/auth`). -/

/-- Character-list prefix test, used to embed Python's `str.startswith`. -/
def listIsPre : List Char → List Char → Bool
  | [], _ => true
  | _ :: _, [] => false
  | a :: as2, b :: bs => a == b && listIsPre as2 bs

/-- Python's `s.startswith(p)`. -/
def strStartsWith (s p : String) : Bool :=
  listIsPre p.data s.data

/-- Python's `s.rstrip('/')`: removes every trailing `'/'`. -/
def rstripSlash (s : String) : String :=
  ⟨(s.data.reverse.dropWhile (fun c => c == '/')).reverse⟩

/-- `Auth.require_auth(path, excluded_paths)` (0x01 auth.py): `True` when
`path is None` or `excluded_paths` is `None` or empty; otherwise the path is
normalized by `path.rstrip('/') + '/'` — the excluded entries are used
verbatim — and the result is the negation of `any(path.startswith(e))`. -/
def require_auth (path : Option String) (excluded_paths : Option (List String)) :
    Bool :=
  match path with
  | none => true
  | some p =>
    match excluded_paths with
    | none => true
    | some ex =>
      if ex.length == 0 then true
      else !(ex.any (fun e => strStartsWith (rstripSlash p ++ "/") e))

/-- Transcription of claim C6's wording, for comparison with `require_auth`:
it normalizes the trailing slash on the path AND on each excluded entry
(each ends with exactly one `'/'`) before the prefix test. -/
def requireAuthSpec (path : Option String) (excluded_paths : Option (List String)) :
    Bool :=
  match path with
  | none => true
  | some p =>
    match excluded_paths with
    | none => true
    | some ex =>
      if ex.length == 0 then true
      else
        !(ex.any (fun e =>
          strStartsWith (rstripSlash p ++ "/") (rstripSlash e ++ "/")))

/-- The request object as far as the extractor reads it:
`request.headers.get('Authorization')`. -/
structure Request where
  authorization : Option String
  deriving DecidableEq, Repr

/-- `Auth.authorization_header(request)`: `None` if the request is `None`,
else the Authorization header value (or `None` when absent). -/
def authorization_header (req : Option Request) : Option String :=
  match req with
  | none => none
  | some r => r.authorization

/-- Python string drop `s[n:]`. -/
def strDrop (s : String) (n : Nat) : String :=
  ⟨s.data.drop n⟩

/-- `BasicAuth.extract_base64_authorization_header`: `None` unless the value
is a string starting with `"Basic "`; otherwise the remainder `[6:]`. -/
def extract_base64_authorization_header (h : Option String) : Option String :=
  match h with
  | none => none
  | some s => if strStartsWith s "Basic " then some (strDrop s 6) else none

/-- `BasicAuth.decode_base64_authorization_header`: `base64.b64decode`
followed by `bytes.decode('utf-8')` under a `try` that turns every failure
into `None`.  Both are external library calls, so the composite partial
decoder is the explicit `dec` argument, `none` standing for malformed base64
or invalid UTF-8. -/
def decode_base64_authorization_header (dec : String → Option String)
    (b : Option String) : Option String :=
  match b with
  | none => none
  | some s => dec s

/-- `BasicAuth.extract_user_credentials`: the `(None, None)` pair unless the
decoded string contains `':'`; otherwise `split(':', 1)`, the parts before
and after the first colon. -/
def extract_user_credentials (d : Option String) :
    Option String × Option String :=
  match d with
  | none => (none, none)
  | some s =>
    if s.data.contains ':' then
      (some ⟨s.data.takeWhile (fun c => c != ':')⟩,
       some ⟨(s.data.dropWhile (fun c => c != ':')).drop 1⟩)
    else (none, none)

/-- Modelled from the spec: `models/user.py` of the 0x01 variant is not in
the repository snapshot; per the spec, an account carries an email and a
password credential, `search` is exact-match lookup by email, and password
validation is the hasher's verify, modelled here as exact comparison. -/
structure BUser where
  email : String
  pwd : String
  deriving DecidableEq, Repr

/-- Modelled from the spec: `User.search` with an email filter returns the
accounts whose email matches exactly. -/
def searchByEmail (db : List BUser) (e : String) : List BUser :=
  db.filter (fun u => u.email == e)

/-- Modelled from the spec: `user.is_valid_password(pwd)` verifies the
password against the stored credential. -/
def is_valid_password (u : BUser) (p : String) : Bool :=
  u.pwd == p

/-- `BasicAuth.user_object_from_credentials`: `None` unless both credentials
are strings; then the first account matching the email, provided the
password validates. -/
def user_object_from_credentials (db : List BUser)
    (user_email user_pwd : Option String) : Option BUser :=
  match user_email, user_pwd with
  | some e, some p =>
    match searchByEmail db e with
    | [] => none
    | u :: _ => if is_valid_password u p then some u else none
  | _, _ => none

/-- Python truthiness of an optional string: `None` and `""` are falsy. -/
def falsyOptStr : Option String → Bool
  | none => true
  | some s => s == ""

/-- `BasicAuth.current_user(request)`: composes the steps in order, with an
`if not ...: return None` short-circuit after each one. -/
def current_user (dec : String → Option String) (db : List BUser)
    (req : Option Request) : Option BUser :=
  let auth_header := authorization_header req
  if falsyOptStr auth_header then none
  else
    let base64_part := extract_base64_authorization_header auth_header
    if falsyOptStr base64_part then none
    else
      let decoded_str := decode_base64_authorization_header dec base64_part
      if falsyOptStr decoded_str then none
      else
        let ep := extract_user_credentials decoded_str
        if falsyOptStr ep.1 || falsyOptStr ep.2 then none
        else user_object_from_credentials db ep.1 ep.2

/-! Helper lemmas about the store. -/

/-- `find?` only depends on the pointwise behaviour of the predicate. -/
theorem findq_congr {α : Type} {l : List α} {p q : α → Bool}
    (h : ∀ u, p u = q u) : l.find? p = l.find? q := by
  induction l with
  | nil => rfl
  | cons a t ih => simp only [List.find?, h a, ih]

/-- `find_user_by` with a single email filter is first-match lookup by email. -/
theorem find_user_by_email (db : DBState) (e : String) :
    find_user_by db [Filter.email e] =
      optToRes (db.users.find? (fun u => u.email == e)) := by
  show optToRes (db.users.find? (fun u => [Filter.email e].all (matchFilter u))) = _
  congr 1
  apply findq_congr
  intro u
  simp [matchFilter]

/-- `find_user_by` with a single id filter is first-match lookup by id. -/
theorem find_user_by_id (db : DBState) (n : Nat) :
    find_user_by db [Filter.id n] =
      optToRes (db.users.find? (fun u => u.id == n)) := by
  show optToRes (db.users.find? (fun u => [Filter.id n].all (matchFilter u))) = _
  congr 1
  apply findq_congr
  intro u
  simp [matchFilter]

/-- `find_user_by` with a single non-NULL session-id filter is first-match
lookup by that session id. -/
theorem find_user_by_session (db : DBState) (s : String) :
    find_user_by db [Filter.session_id (some s)] =
      optToRes (db.users.find? (fun u => u.session_id == some s)) := by
  show optToRes (db.users.find?
    (fun u => [Filter.session_id (some s)].all (matchFilter u))) = _
  congr 1
  apply findq_congr
  intro u
  cases h : u.session_id <;> simp [matchFilter, h]

/-- `find_user_by` with a single non-NULL reset-token filter is first-match
lookup by that reset token. -/
theorem find_user_by_reset (db : DBState) (t : String) :
    find_user_by db [Filter.reset_token (some t)] =
      optToRes (db.users.find? (fun u => u.reset_token == some t)) := by
  show optToRes (db.users.find?
    (fun u => [Filter.reset_token (some t)].all (matchFilter u))) = _
  congr 1
  apply findq_congr
  intro u
  cases h : u.reset_token <;> simp [matchFilter, h]

/-- When the row ids are unique, id lookup starting from a member row finds
exactly that row. -/
theorem find_id_of_uniq {db : DBState} {u : User}
    (hids : ∀ v ∈ db.users, ∀ w ∈ db.users, v.id = w.id → v = w)
    (hu : u ∈ db.users) :
    db.users.find? (fun v => v.id == u.id) = some u := by
  cases hf : db.users.find? (fun v => v.id == u.id) with
  | none =>
    have h1 := List.find?_eq_none.mp hf u hu
    simp at h1
  | some v =>
    have hv := List.find?_some hf
    have hmem := List.mem_of_find?_eq_some hf
    have : v = u := hids v hmem u hu (by simpa using hv)
    rw [this]

/-- Any id lookup starting from a member row succeeds on some row. -/
theorem find_id_isSome {db : DBState} {u : User} (hu : u ∈ db.users) :
    ∃ w, db.users.find? (fun v => v.id == u.id) = some w := by
  cases hf : db.users.find? (fun v => v.id == u.id) with
  | none =>
    have h1 := List.find?_eq_none.mp hf u hu
    simp at h1
  | some w => exact ⟨w, rfl⟩

/-- A successful `update_user` in equation form. -/
theorem update_user_ok {db : DBState} {uid : Nat} {kwargs : List Assign} {w : User}
    (hw : db.users.find? (fun v => v.id == uid) = some w)
    (hk : firstInvalidAssign kwargs = none) :
    update_user db uid kwargs =
      (.ok (),
       ⟨db.users.map (fun u => if u.id == uid then applyAssigns u kwargs else u),
        db.next_id⟩) := by
  unfold update_user
  rw [find_user_by_id, hw, hk]
  rfl

/-! Claim theorems. -/

/-- Claim C1: for every store state, if an account with email `e` already
exists then `register_user e p` fails with the duplicate-email `ValueError`
and leaves the store unchanged (in particular the account count is the same);
if no account with `e` exists, it inserts exactly one new account whose
stored hash is the hash of `p`. -/
theorem register_user_spec (db : DBState) (e p : String) (salt : Nat) :
    ((∃ u ∈ db.users, u.email = e) →
      register_user db e p salt =
        (.error (Err.valueError ("User " ++ e ++ " already exists")), db) ∧
      (register_user db e p salt).2.users.length = db.users.length) ∧
    ((∀ u ∈ db.users, u.email ≠ e) →
      register_user db e p salt =
        (.ok ⟨db.next_id, e, hashpw p salt, none, none⟩,
         ⟨db.users ++ [⟨db.next_id, e, hashpw p salt, none, none⟩],
          db.next_id + 1⟩)) := by
  constructor
  · intro hex
    obtain ⟨u, hu, hue⟩ := hex
    have hsome : (db.users.find? (fun v => v.email == e)).isSome := by
      rw [List.find?_isSome]
      exact ⟨u, hu, by simp [hue]⟩
    obtain ⟨w, hw⟩ := Option.isSome_iff_exists.mp hsome
    have heq : register_user db e p salt =
        (.error (Err.valueError ("User " ++ e ++ " already exists")), db) := by
      unfold register_user
      rw [find_user_by_email, hw]
      rfl
    exact ⟨heq, by rw [heq]⟩
  · intro hall
    have hnone : db.users.find? (fun v => v.email == e) = none := by
      rw [List.find?_eq_none]
      intro x hx
      simp [hall x hx]
    unfold register_user
    rw [find_user_by_email, hnone]
    rfl

/-- Witness for C1 at a concrete one-account store and at the empty store. -/
theorem register_user_spec_witness :
    register_user ⟨[⟨1, "a@b", hashpw "p" 0, none, none⟩], 2⟩ "a@b" "q" 5 =
      (.error (Err.valueError ("User " ++ "a@b" ++ " already exists")),
       ⟨[⟨1, "a@b", hashpw "p" 0, none, none⟩], 2⟩) ∧
    register_user ⟨[], 1⟩ "a@b" "p" 0 =
      (.ok ⟨1, "a@b", hashpw "p" 0, none, none⟩,
       ⟨[⟨1, "a@b", hashpw "p" 0, none, none⟩], 2⟩) := by
  constructor
  · exact ((register_user_spec ⟨[⟨1, "a@b", hashpw "p" 0, none, none⟩], 2⟩
      "a@b" "q" 5).1 ⟨⟨1, "a@b", hashpw "p" 0, none, none⟩, by simp, rfl⟩).1
  · exact (register_user_spec ⟨[], 1⟩ "a@b" "p" 0).2 (by simp)

/-- Claim C2: `verify(p, hash(p))` is true for every password, and
`verify(p2, hash(p))` is false for every `p2 ≠ p`; consequently, when at most
one account carries email `e`, `valid_login e p` is true iff an account with
that email exists and `p` matches its stored hash, and it is false — a
returned value, not an exception — when the account is missing or the hash
does not match. -/
theorem valid_login_spec :
    (∀ p salt, checkpw p (hashpw p salt) = true) ∧
    (∀ p p2 salt, p2 ≠ p → checkpw p2 (hashpw p salt) = false) ∧
    (∀ db e p,
      (∀ u ∈ db.users, ∀ v ∈ db.users, u.email = e → v.email = e → u = v) →
      (valid_login db e p = true ↔
        ∃ u ∈ db.users, u.email = e ∧ checkpw p u.hashed_password = true)) := by
  refine ⟨fun p salt => by simp [checkpw, hashpw],
    fun p p2 salt h => by simp [checkpw, hashpw, h], ?_⟩
  intro db e p huniq
  unfold valid_login
  rw [find_user_by_email]
  cases hf : db.users.find? (fun v => v.email == e) with
  | none =>
    constructor
    · intro h
      simp [optToRes] at h
    · rintro ⟨u, hu, hue, hcp⟩
      have h2 := List.find?_eq_none.mp hf u hu
      simp [hue] at h2
  | some u =>
    constructor
    · intro h
      refine ⟨u, List.mem_of_find?_eq_some hf, ?_, ?_⟩
      · simpa using List.find?_some hf
      · simpa [optToRes] using h
    · rintro ⟨v, hv, hve, hcp⟩
      have hue : u.email = e := by simpa using List.find?_some hf
      have hvu : v = u := huniq v hv u (List.mem_of_find?_eq_some hf) hve hue
      rw [hvu] at hcp
      simpa [optToRes] using hcp

/-- Witness for C2 at concrete passwords and a concrete one-account store. -/
theorem valid_login_spec_witness :
    checkpw "p" (hashpw "p" 3) = true ∧
    checkpw "q" (hashpw "p" 3) = false ∧
    (valid_login ⟨[⟨1, "a@b", hashpw "p" 0, none, none⟩], 2⟩ "a@b" "p" = true ↔
      ∃ u ∈ [(⟨1, "a@b", hashpw "p" 0, none, none⟩ : User)],
        u.email = "a@b" ∧ checkpw "p" u.hashed_password = true) :=
  ⟨valid_login_spec.1 "p" 3,
   valid_login_spec.2.1 "p" "q" 3 (by decide),
   valid_login_spec.2.2 ⟨[⟨1, "a@b", hashpw "p" 0, none, none⟩], 2⟩ "a@b" "p"
     (by decide)⟩

/-- Claim C10: a falsy session token (`None` or the empty string) makes
`get_user_from_session_id` return `None` for every store state, without the
store being consulted; and any account it does return was matched through a
non-empty stored `session_id` equal to the looked-up token — so an account
whose `session_id` is cleared to `None` is never reachable through session
lookup. -/
theorem cleared_session_unreachable (db : DBState) :
    get_user_from_session_id db none = none ∧
    get_user_from_session_id db (some "") = none ∧
    (∀ sid u, get_user_from_session_id db sid = some u →
      ∃ s, sid = some s ∧ s ≠ "" ∧ u.session_id = some s ∧ u ∈ db.users) := by
  refine ⟨rfl, by simp [get_user_from_session_id], ?_⟩
  intro sid u h
  cases sid with
  | none => simp [get_user_from_session_id] at h
  | some s =>
    by_cases hs : s = ""
    · rw [hs] at h
      simp [get_user_from_session_id] at h
    · refine ⟨s, rfl, hs, ?_⟩
      simp only [get_user_from_session_id] at h
      rw [find_user_by_session] at h
      rw [if_neg (by simpa using hs)] at h
      cases hf : db.users.find? (fun v => v.session_id == some s) with
      | none =>
        rw [hf] at h
        simp [optToRes] at h
      | some w =>
        rw [hf] at h
        simp [optToRes] at h
        rw [← h]
        exact ⟨by simpa using List.find?_some hf, List.mem_of_find?_eq_some hf⟩

/-- Witness for C10 at a concrete one-account store with a live session. -/
theorem cleared_session_unreachable_witness :
    get_user_from_session_id ⟨[⟨1, "a@b", hashpw "p" 0, some "tok", none⟩], 2⟩
      none = none ∧
    ∃ s, (some "tok" : Option String) = some s ∧ s ≠ "" ∧
      (⟨1, "a@b", hashpw "p" 0, some "tok", none⟩ : User).session_id = some s ∧
      (⟨1, "a@b", hashpw "p" 0, some "tok", none⟩ : User) ∈
        (⟨[⟨1, "a@b", hashpw "p" 0, some "tok", none⟩], 2⟩ : DBState).users :=
  ⟨(cleared_session_unreachable _).1,
   (cleared_session_unreachable ⟨[⟨1, "a@b", hashpw "p" 0, some "tok", none⟩], 2⟩).2.2
     (some "tok") ⟨1, "a@b", hashpw "p" 0, some "tok", none⟩ (by decide)⟩

/-- Counterexample for claim C9: on a store with no account of id 1,
`update_user` does not return silently — the id lookup's `NoResultFound`
propagates out of the call (the source's `if user is None: return` branch is
unreachable, since `find_user_by` raises instead of returning `None`). -/
theorem update_user_missing_counterexample :
    (update_user ⟨[], 1⟩ 1 []).1 = .error Err.noResultFound := by
  rfl

/-- Claim C9 as amended: `update_user` with an id matching no account fails
with the propagated `NoResultFound` (leaving the store unchanged) rather than
returning silently; and `destroy_session` with a falsy id (`None` or `0`) is
a no-op that changes no account state. -/
theorem update_user_missing_amended (db : DBState) (uid : Nat)
    (kwargs : List Assign) (h : ∀ v ∈ db.users, v.id ≠ uid) :
    update_user db uid kwargs = (.error Err.noResultFound, db) ∧
    destroy_session db none = (.ok (), db) ∧
    destroy_session db (some 0) = (.ok (), db) := by
  refine ⟨?_, rfl, rfl⟩
  unfold update_user
  rw [find_user_by_id]
  have hnone : db.users.find? (fun v => v.id == uid) = none := by
    rw [List.find?_eq_none]
    intro x hx
    simp [h x hx]
  rw [hnone]
  rfl

/-- Witness for the amended C9 at a concrete store and the missing id 7. -/
theorem update_user_missing_amended_witness :
    update_user ⟨[⟨1, "a@b", hashpw "p" 0, none, none⟩], 2⟩ 7 [] =
      (.error Err.noResultFound, ⟨[⟨1, "a@b", hashpw "p" 0, none, none⟩], 2⟩) ∧
    destroy_session ⟨[⟨1, "a@b", hashpw "p" 0, none, none⟩], 2⟩ none =
      (.ok (), ⟨[⟨1, "a@b", hashpw "p" 0, none, none⟩], 2⟩) ∧
    destroy_session ⟨[⟨1, "a@b", hashpw "p" 0, none, none⟩], 2⟩ (some 0) =
      (.ok (), ⟨[⟨1, "a@b", hashpw "p" 0, none, none⟩], 2⟩) :=
  update_user_missing_amended _ 7 [] (by decide)

/-- Counterexample for claim C5: with an account of email `"a@b"` already in
the store, the store-level insert `add_user` succeeds — its result type
`User × DBState` admits no failure at all, so no `DuplicateEmail` is ever
raised — and produces a state holding two accounts that share the email. -/
theorem add_user_duplicate_counterexample :
    (add_user ⟨[⟨1, "a@b", hashpw "p" 0, none, none⟩], 2⟩ "a@b"
      (hashpw "q" 1)).2.users =
      [⟨1, "a@b", hashpw "p" 0, none, none⟩,
       ⟨2, "a@b", hashpw "q" 1, none, none⟩] ∧
    ((add_user ⟨[⟨1, "a@b", hashpw "p" 0, none, none⟩], 2⟩ "a@b"
      (hashpw "q" 1)).2.users.filter (fun u => u.email == "a@b")).length = 2 := by
  constructor <;> rfl

/-- Claim C5 as amended: the store's insert enforces nothing — `add_user`
unconditionally appends exactly one new account, so when an account with
email `e` already exists the resulting state has at least two accounts
sharing `e`; email uniqueness is enforced one layer up, by
`Auth.register_user`'s check-then-insert, which rejects the duplicate before
any mutation. -/
theorem add_user_amended (db : DBState) (e : String) (h : Hash) (p : String)
    (salt : Nat) :
    (add_user db e h).2.users = db.users ++ [⟨db.next_id, e, h, none, none⟩] ∧
    ((∃ u ∈ db.users, u.email = e) →
      2 ≤ ((add_user db e h).2.users.filter (fun u => u.email == e)).length) ∧
    ((∃ u ∈ db.users, u.email = e) → (register_user db e p salt).2 = db) := by
  refine ⟨rfl, ?_, ?_⟩
  · rintro ⟨u, hu, hue⟩
    have h1 : 0 < (db.users.filter (fun v => v.email == e)).length :=
      List.length_pos_of_mem (List.mem_filter.mpr ⟨hu, by simp [hue]⟩)
    show 2 ≤ ((db.users ++ [(⟨db.next_id, e, h, none, none⟩ : User)]).filter
      (fun v => v.email == e)).length
    rw [List.filter_append, List.length_append]
    have h2 : (([(⟨db.next_id, e, h, none, none⟩ : User)]).filter
        (fun v => v.email == e)).length = 1 := by
      simp [List.filter]
    omega
  · rintro ⟨u, hu, hue⟩
    have hsome : (db.users.find? (fun v => v.email == e)).isSome := by
      rw [List.find?_isSome]
      exact ⟨u, hu, by simp [hue]⟩
    obtain ⟨w, hw⟩ := Option.isSome_iff_exists.mp hsome
    unfold register_user
    rw [find_user_by_email, hw]
    rfl

/-- Witness for the amended C5 at a concrete store already holding the email. -/
theorem add_user_amended_witness :
    2 ≤ ((add_user ⟨[⟨1, "a@b", hashpw "p" 0, none, none⟩], 2⟩ "a@b"
      (hashpw "q" 1)).2.users.filter (fun u => u.email == "a@b")).length ∧
    (register_user ⟨[⟨1, "a@b", hashpw "p" 0, none, none⟩], 2⟩ "a@b" "q" 5).2 =
      ⟨[⟨1, "a@b", hashpw "p" 0, none, none⟩], 2⟩ :=
  ⟨(add_user_amended ⟨[⟨1, "a@b", hashpw "p" 0, none, none⟩], 2⟩ "a@b"
      (hashpw "q" 1) "q" 5).2.1 ⟨⟨1, "a@b", hashpw "p" 0, none, none⟩, by simp, rfl⟩,
   (add_user_amended ⟨[⟨1, "a@b", hashpw "p" 0, none, none⟩], 2⟩ "a@b"
      (hashpw "q" 1) "q" 5).2.2 ⟨⟨1, "a@b", hashpw "p" 0, none, none⟩, by simp, rfl⟩⟩

/-- Counterexample for claim C6: the code does not normalize the excluded
entries.  At path `"/api/v1/statusx"` against the excluded list
`["/api/v1/status"]`, the claim's normalize-both reading (transcribed in
`requireAuthSpec`, under which the normalized path `"/api/v1/statusx/"` does
not have the normalized entry `"/api/v1/status/"` as a prefix, so auth is
required) gives `true`, while `require_auth` compares the normalized path
against the raw entry `"/api/v1/status"`, which IS a prefix, and returns
`false`. -/
theorem require_auth_counterexample :
    require_auth (some "/api/v1/statusx") (some ["/api/v1/status"]) = false ∧
    requireAuthSpec (some "/api/v1/statusx") (some ["/api/v1/status"]) = true := by
  constructor <;> decide

/-- Claim C6 as amended: `require_auth` normalizes the trailing slash of the
path only (strip all trailing `'/'`, append exactly one), the excluded
entries being used verbatim; it returns false iff the normalized path has
one of the raw excluded entries as a prefix; it returns true when the path
is `None` or the excluded list is `None` or empty; and the three concrete
examples of the claim hold as stated. -/
theorem require_auth_amended :
    (∀ ex, require_auth none ex = true) ∧
    (∀ p, require_auth (some p) none = true) ∧
    (∀ p, require_auth (some p) (some []) = true) ∧
    (∀ p ex, ex ≠ [] →
      (require_auth (some p) (some ex) = false ↔
        ∃ x ∈ ex, strStartsWith (rstripSlash p ++ "/") x = true)) ∧
    require_auth (some "/api/v1/status/") (some ["/api/v1/status/"]) = false ∧
    require_auth (some "/api/v1/status") (some ["/api/v1/status/"]) = false ∧
    require_auth (some "/api/v1/other/") (some ["/api/v1/status/"]) = true := by
  refine ⟨fun ex => rfl, fun p => rfl, fun p => rfl, ?_,
    by decide, by decide, by decide⟩
  intro p ex h
  cases ex with
  | nil => exact absurd rfl h
  | cons a t =>
    show (!((a :: t).any fun e => strStartsWith (rstripSlash p ++ "/") e))
        = false ↔ _
    have hb : ∀ b : Bool, ((!b) = false ↔ b = true) := by decide
    rw [hb]
    exact List.any_eq_true

/-- Witness for the amended C6 at the counterexample path. -/
theorem require_auth_amended_witness :
    require_auth (some "/api/v1/statusx") (some ["/api/v1/status"]) = false ↔
      ∃ x ∈ ["/api/v1/status"],
        strStartsWith (rstripSlash "/api/v1/statusx" ++ "/") x = true :=
  require_auth_amended.2.2.2.1 "/api/v1/statusx" ["/api/v1/status"] (by decide)

/-- The final pipeline step only ever yields `none` or an account of the
store. -/
theorem user_object_mem (db : List BUser) (e p : Option String) :
    user_object_from_credentials db e p = none ∨
    ∃ u ∈ db, user_object_from_credentials db e p = some u := by
  cases e with
  | none => exact Or.inl rfl
  | some e2 =>
    cases p with
    | none => exact Or.inl rfl
    | some p2 =>
      have hred : user_object_from_credentials db (some e2) (some p2) =
          (match searchByEmail db e2 with
           | [] => none
           | u :: _ => if is_valid_password u p2 then some u else none) := rfl
      rw [hred]
      cases hs : searchByEmail db e2 with
      | nil => exact Or.inl rfl
      | cons u rest =>
        by_cases hv : is_valid_password u p2 = true
        · refine Or.inr ⟨u, ?_, by simp [hv]⟩
          have hmem : u ∈ searchByEmail db e2 := by
            rw [hs]
            exact List.mem_cons_self u rest
          exact List.mem_of_mem_filter hmem
        · exact Or.inl (by simp [hv])

/-- Claim C7: every step of the Basic-Auth pipeline degrades failure to a
"no credential" value instead of raising — a missing header or one not
starting with `"Basic "` yields none, a failing base64/UTF-8 decode yields
none, a decoded string without `':'` yields the `(none, none)` pair — and
`current_user` composes the steps in order, short-circuiting to none at the
first falsy step, so it always returns either an account of the store or
none. -/
theorem current_user_total (dec : String → Option String) (db : List BUser) :
    extract_base64_authorization_header none = none ∧
    (∀ h, strStartsWith h "Basic " = false →
      extract_base64_authorization_header (some h) = none) ∧
    (∀ s, dec s = none →
      decode_base64_authorization_header dec (some s) = none) ∧
    (∀ d, d.data.contains ':' = false →
      extract_user_credentials (some d) = (none, none)) ∧
    (∀ req, falsyOptStr (authorization_header req) = true →
      current_user dec db req = none) ∧
    (∀ req, falsyOptStr (extract_base64_authorization_header
        (authorization_header req)) = true →
      current_user dec db req = none) ∧
    (∀ req, falsyOptStr (decode_base64_authorization_header dec
        (extract_base64_authorization_header (authorization_header req))) = true →
      current_user dec db req = none) ∧
    (∀ req, (falsyOptStr (extract_user_credentials
          (decode_base64_authorization_header dec
            (extract_base64_authorization_header (authorization_header req)))).1 ||
        falsyOptStr (extract_user_credentials
          (decode_base64_authorization_header dec
            (extract_base64_authorization_header (authorization_header req)))).2) = true →
      current_user dec db req = none) ∧
    (∀ req, current_user dec db req = none ∨
      ∃ u ∈ db, current_user dec db req = some u) := by
  refine ⟨rfl, ?_, ?_, ?_, ?_, ?_, ?_, ?_, ?_⟩
  · intro h hb
    simp [extract_base64_authorization_header, hb]
  · intro s hd
    simp [decode_base64_authorization_header, hd]
  · intro d hc
    simp only [extract_user_credentials]
    rw [if_neg]
    simpa using hc
  · intro req h1
    simp [current_user, h1]
  · intro req h2
    simp [current_user, h2]
  · intro req h3
    simp [current_user, h3]
  · intro req h4
    simp [current_user, h4]
  · intro req
    by_cases h1 : falsyOptStr (authorization_header req) = true
    · exact Or.inl (by simp [current_user, h1])
    · by_cases h2 : falsyOptStr (extract_base64_authorization_header
          (authorization_header req)) = true
      · exact Or.inl (by simp [current_user, h2])
      · by_cases h3 : falsyOptStr (decode_base64_authorization_header dec
            (extract_base64_authorization_header (authorization_header req))) = true
        · exact Or.inl (by simp [current_user, h3])
        · by_cases h4 : (falsyOptStr (extract_user_credentials
              (decode_base64_authorization_header dec
                (extract_base64_authorization_header (authorization_header req)))).1 ||
              falsyOptStr (extract_user_credentials
                (decode_base64_authorization_header dec
                  (extract_base64_authorization_header (authorization_header req)))).2) = true
          · exact Or.inl (by simp [current_user, h4])
          · have heq : current_user dec db req =
                user_object_from_credentials db
                  (extract_user_credentials (decode_base64_authorization_header dec
                    (extract_base64_authorization_header (authorization_header req)))).1
                  (extract_user_credentials (decode_base64_authorization_header dec
                    (extract_base64_authorization_header (authorization_header req)))).2 := by
              simp [current_user, h1, h2, h3, h4]
            rw [heq]
            exact user_object_mem db _ _

/-- Witness for C7 at concrete headers, a trivial decoder and the empty
store. -/
theorem current_user_total_witness :
    extract_base64_authorization_header none = none ∧
    extract_base64_authorization_header (some "Bearer xyz") = none ∧
    decode_base64_authorization_header (fun _ => none) (some "QUJD") = none ∧
    extract_user_credentials (some "abc") = (none, none) ∧
    current_user (fun _ => none) [] none = none ∧
    (current_user (fun _ => none) [] (some ⟨some "Basic QUJD"⟩) = none ∨
      ∃ u ∈ ([] : List BUser),
        current_user (fun _ => none) [] (some ⟨some "Basic QUJD"⟩) = some u) :=
  ⟨(current_user_total (fun _ => none) []).1,
   (current_user_total (fun _ => none) []).2.1 "Bearer xyz" (by decide),
   (current_user_total (fun _ => none) []).2.2.1 "QUJD" rfl,
   (current_user_total (fun _ => none) []).2.2.2.1 "abc" (by decide),
   (current_user_total (fun _ => none) []).2.2.2.2.1 none rfl,
   (current_user_total (fun _ => none) []).2.2.2.2.2.2.2.2 (some ⟨some "Basic QUJD"⟩)⟩

/-- A field projection is untouched by `applyAssigns` when no update entry is
built by that field's constructor. -/
theorem applyAssigns_untouched {α : Type} (proj : User → α) (mk : α → Assign)
    (hset : ∀ u a, (∀ y, a ≠ mk y) → proj (setField u a) = proj u)
    (kwargs : List Assign) (v : User) (h : ∀ y, mk y ∉ kwargs) :
    proj (applyAssigns v kwargs) = proj v := by
  induction kwargs generalizing v with
  | nil => rfl
  | cons a rest ih =>
    have hrest : ∀ y, mk y ∉ rest := fun y hy => h y (List.mem_cons_of_mem a hy)
    have hne : ∀ y, a ≠ mk y := by
      intro y hay
      exact h y (hay ▸ List.mem_cons_self a rest)
    calc proj (applyAssigns (setField v a) rest)
        = proj (setField v a) := ih (setField v a) hrest
      _ = proj v := hset v a hne

/-- With the keyword keys unique (a Python `**kwargs` dict), a named field is
set to the value it is named with. -/
theorem applyAssigns_set {α : Type} (proj : User → α) (mk : α → Assign)
    (hset : ∀ u a, (∀ y, a ≠ mk y) → proj (setField u a) = proj u)
    (hget : ∀ u y, proj (setField u (mk y)) = y)
    (hkey : ∀ y z, Assign.key (mk y) = Assign.key (mk z))
    (kwargs : List Assign) (v : User) (x : α)
    (hnd : (kwargs.map Assign.key).Nodup) (hm : mk x ∈ kwargs) :
    proj (applyAssigns v kwargs) = x := by
  induction kwargs generalizing v with
  | nil => cases hm
  | cons a rest ih =>
    have hnd2 : (rest.map Assign.key).Nodup := by
      rw [List.map_cons] at hnd
      exact (List.nodup_cons.mp hnd).2
    rcases List.mem_cons.mp hm with ha | hrest
    · have hnotin : Assign.key a ∉ rest.map Assign.key := by
        rw [List.map_cons] at hnd
        exact (List.nodup_cons.mp hnd).1
      have hnone : ∀ y, mk y ∉ rest := by
        intro y hy
        apply hnotin
        rw [← ha, hkey x y]
        exact List.mem_map_of_mem Assign.key hy
      have h1 : proj (applyAssigns (setField v a) rest) = proj (setField v a) :=
        applyAssigns_untouched proj mk hset rest (setField v a) hnone
      have h2 : proj (setField v a) = x := by
        rw [← ha]
        exact hget v x
      exact h1.trans h2
    · exact ih (setField v a) hnd2 hrest

/-- Claim C8: `find_user_by` fails with the invalid-field error whenever some
filter key is not a recognized account field; `update_user` fails without
changing anything whenever some update key is invalid, and any failure at all
leaves the store unchanged (all-or-nothing); a successful update rewrites the
matched row through `applyAssigns`, which — for unique keyword keys — sets
exactly the named fields to their given values and leaves every unnamed field
untouched. -/
theorem store_field_validation (db : DBState) (filters : List Filter)
    (uid : Nat) (kwargs : List Assign) :
    ((∃ f ∈ filters, f.isOther = true) →
      ∃ k, find_user_by db filters = .error (Err.invalidRequest k)) ∧
    ((∃ a ∈ kwargs, a.isOther = true) →
      ∃ e, (update_user db uid kwargs).1 = .error e) ∧
    ((∃ e, (update_user db uid kwargs).1 = .error e) →
      (update_user db uid kwargs).2 = db) ∧
    ((∀ a ∈ kwargs, a.isOther = false) →
      ∀ w, db.users.find? (fun v => v.id == uid) = some w →
        update_user db uid kwargs =
          (.ok (),
           ⟨db.users.map (fun v => if v.id == uid then applyAssigns v kwargs else v),
            db.next_id⟩)) ∧
    ((kwargs.map Assign.key).Nodup → ∀ v : User,
      ((∀ y, Assign.id y ∉ kwargs) → (applyAssigns v kwargs).id = v.id) ∧
      (∀ y, Assign.id y ∈ kwargs → (applyAssigns v kwargs).id = y) ∧
      ((∀ y, Assign.email y ∉ kwargs) → (applyAssigns v kwargs).email = v.email) ∧
      (∀ y, Assign.email y ∈ kwargs → (applyAssigns v kwargs).email = y) ∧
      ((∀ y, Assign.hashed_password y ∉ kwargs) →
        (applyAssigns v kwargs).hashed_password = v.hashed_password) ∧
      (∀ y, Assign.hashed_password y ∈ kwargs →
        (applyAssigns v kwargs).hashed_password = y) ∧
      ((∀ y, Assign.session_id y ∉ kwargs) →
        (applyAssigns v kwargs).session_id = v.session_id) ∧
      (∀ y, Assign.session_id y ∈ kwargs → (applyAssigns v kwargs).session_id = y) ∧
      ((∀ y, Assign.reset_token y ∉ kwargs) →
        (applyAssigns v kwargs).reset_token = v.reset_token) ∧
      (∀ y, Assign.reset_token y ∈ kwargs →
        (applyAssigns v kwargs).reset_token = y)) := by
  refine ⟨?_, ?_, ?_, ?_, ?_⟩
  · rintro ⟨f, hf, hfo⟩
    have hsome : (filters.find? Filter.isOther).isSome :=
      List.find?_isSome.mpr ⟨f, hf, hfo⟩
    obtain ⟨g, hg⟩ := Option.isSome_iff_exists.mp hsome
    refine ⟨g.key, ?_⟩
    unfold find_user_by firstInvalidKey
    rw [hg]
    rfl
  · rintro ⟨a, ha, hao⟩
    unfold update_user
    cases hf : find_user_by db [Filter.id uid] with
    | error e => exact ⟨e, rfl⟩
    | ok w =>
      have hsome : (kwargs.find? Assign.isOther).isSome :=
        List.find?_isSome.mpr ⟨a, ha, hao⟩
      obtain ⟨b, hb⟩ := Option.isSome_iff_exists.mp hsome
      have hfa : firstInvalidAssign kwargs = some b.key := by
        unfold firstInvalidAssign
        rw [hb]
        rfl
      rw [hfa]
      exact ⟨Err.valueError ("Invalid attribute: " ++ b.key), rfl⟩
  · rintro ⟨e, he⟩
    unfold update_user at he ⊢
    cases hf : find_user_by db [Filter.id uid] with
    | error e2 => rfl
    | ok w =>
      rw [hf] at he
      cases hfa : firstInvalidAssign kwargs with
      | some k => rfl
      | none =>
        rw [hfa] at he
        cases he
  · intro hall w hw
    apply update_user_ok hw
    unfold firstInvalidAssign
    have : kwargs.find? Assign.isOther = none := by
      rw [List.find?_eq_none]
      intro x hx
      simp [hall x hx]
    rw [this]
    rfl
  · intro hnd v
    have hsetid : ∀ u a, (∀ y, a ≠ Assign.id y) → (setField u a).id = u.id := by
      intro u a h
      cases a <;> first | rfl | exact absurd rfl (h _)
    have hsetem : ∀ u a, (∀ y, a ≠ Assign.email y) → (setField u a).email = u.email := by
      intro u a h
      cases a <;> first | rfl | exact absurd rfl (h _)
    have hsethp : ∀ u a, (∀ y, a ≠ Assign.hashed_password y) →
        (setField u a).hashed_password = u.hashed_password := by
      intro u a h
      cases a <;> first | rfl | exact absurd rfl (h _)
    have hsetse : ∀ u a, (∀ y, a ≠ Assign.session_id y) →
        (setField u a).session_id = u.session_id := by
      intro u a h
      cases a <;> first | rfl | exact absurd rfl (h _)
    have hsetrt : ∀ u a, (∀ y, a ≠ Assign.reset_token y) →
        (setField u a).reset_token = u.reset_token := by
      intro u a h
      cases a <;> first | rfl | exact absurd rfl (h _)
    refine ⟨fun h => applyAssigns_untouched _ _ hsetid kwargs v h,
      fun y hy => applyAssigns_set _ _ hsetid (fun u y2 => rfl) (fun y2 z => rfl)
        kwargs v y hnd hy,
      fun h => applyAssigns_untouched _ _ hsetem kwargs v h,
      fun y hy => applyAssigns_set _ _ hsetem (fun u y2 => rfl) (fun y2 z => rfl)
        kwargs v y hnd hy,
      fun h => applyAssigns_untouched _ _ hsethp kwargs v h,
      fun y hy => applyAssigns_set _ _ hsethp (fun u y2 => rfl) (fun y2 z => rfl)
        kwargs v y hnd hy,
      fun h => applyAssigns_untouched _ _ hsetse kwargs v h,
      fun y hy => applyAssigns_set _ _ hsetse (fun u y2 => rfl) (fun y2 z => rfl)
        kwargs v y hnd hy,
      fun h => applyAssigns_untouched _ _ hsetrt kwargs v h,
      fun y hy => applyAssigns_set _ _ hsetrt (fun u y2 => rfl) (fun y2 z => rfl)
        kwargs v y hnd hy⟩

/-- Witness for C8: an invalid filter key fails the lookup, an invalid update
key fails the update leaving the store unchanged, and a valid single-field
update changes exactly the named field. -/
theorem store_field_validation_witness :
    (∃ k, find_user_by ⟨[], 1⟩ [Filter.other "nope"] =
      .error (Err.invalidRequest k)) ∧
    (update_user ⟨[⟨1, "a@b", hashpw "p" 0, none, none⟩], 2⟩ 1
      [Assign.other "nope"]).2 = ⟨[⟨1, "a@b", hashpw "p" 0, none, none⟩], 2⟩ ∧
    update_user ⟨[⟨1, "a@b", hashpw "p" 0, none, none⟩], 2⟩ 1
      [Assign.session_id (some "s")] =
      (.ok (), ⟨[⟨1, "a@b", hashpw "p" 0, some "s", none⟩], 2⟩) ∧
    (applyAssigns ⟨1, "a@b", hashpw "p" 0, none, none⟩
      [Assign.session_id (some "s")]).email = "a@b" := by
  refine ⟨(store_field_validation ⟨[], 1⟩ [Filter.other "nope"] 0 []).1
      ⟨Filter.other "nope", by simp, rfl⟩, ?_, ?_, ?_⟩
  · exact (store_field_validation ⟨[⟨1, "a@b", hashpw "p" 0, none, none⟩], 2⟩ []
      1 [Assign.other "nope"]).2.2.1
      ⟨Err.valueError ("Invalid attribute: " ++ "nope"), rfl⟩
  · exact (store_field_validation ⟨[⟨1, "a@b", hashpw "p" 0, none, none⟩], 2⟩ []
      1 [Assign.session_id (some "s")]).2.2.2.1
      (by intro a ha; simp at ha; rw [ha]; rfl)
      ⟨1, "a@b", hashpw "p" 0, none, none⟩ (by decide)
  · exact (((store_field_validation ⟨[], 1⟩ [] 0
      [Assign.session_id (some "s")]).2.2.2.2 (by decide)
      ⟨1, "a@b", hashpw "p" 0, none, none⟩).2.2.1
      (by intro y hy; simp at hy))

/-- `find?` only depends on the predicate's behaviour on the list members. -/
theorem findq_congr_mem {α : Type} {l : List α} {p q : α → Bool}
    (h : ∀ u ∈ l, p u = q u) : l.find? p = l.find? q := by
  induction l with
  | nil => rfl
  | cons a rest ih =>
    have ha := h a (List.mem_cons_self a rest)
    have hrest : ∀ u ∈ rest, p u = q u := fun u hu =>
      h u (List.mem_cons_of_mem a hu)
    simp only [List.find?, ha, ih hrest]

/-- `find?` commutes with a map that preserves the predicate. -/
theorem find?_map_pres {l : List User} {g : User → User} {p : User → Bool}
    (h : ∀ v, p (g v) = p v) :
    (l.map g).find? p = (l.find? p).map g := by
  rw [List.find?_map]
  congr 1
  exact findq_congr h

/-- A successful email lookup in `find?` form. -/
theorem ok_of_find_email {db : DBState} {e : String} {u : User}
    (h : find_user_by db [Filter.email e] = .ok u) :
    db.users.find? (fun v => v.email == e) = some u := by
  rw [find_user_by_email] at h
  cases hf : db.users.find? (fun v => v.email == e) with
  | none =>
    rw [hf] at h
    simp [optToRes] at h
  | some w =>
    rw [hf] at h
    simp [optToRes] at h
    rw [h]

/-- Session lookup with a non-empty token is first-match `find?` by that
token. -/
theorem get_user_session_eq (db : DBState) (t : String) (ht : t ≠ "") :
    get_user_from_session_id db (some t) =
      db.users.find? (fun v => v.session_id == some t) := by
  simp only [get_user_from_session_id]
  rw [if_neg (by simpa using ht), find_user_by_session]
  cases db.users.find? (fun v => v.session_id == some t) <;> rfl

/-- Claim C3: for a registered account (the one found by email lookup), when
the row ids are unique (primary key), the generated token `t` is fresh and
non-empty, and the account id is non-falsy, `create_session` returns `t` and
`get_user_from_session_id t` returns that same account (its session field
now holding `t`); after `destroy_session` with that account's id, the same
token yields `none`. -/
theorem session_roundtrip (db : DBState) (e t : String) (u : User)
    (hfind : find_user_by db [Filter.email e] = .ok u)
    (hids : ∀ v ∈ db.users, ∀ w ∈ db.users, v.id = w.id → v = w)
    (hfresh : ∀ v ∈ db.users, v.session_id ≠ some t)
    (ht : t ≠ "") (hid : u.id ≠ 0) :
    ∃ db1 db2,
      create_session db e t = (.ok (some t), db1) ∧
      get_user_from_session_id db1 (some t) =
        some { u with session_id := some t } ∧
      destroy_session db1 (some u.id) = (.ok (), db2) ∧
      get_user_from_session_id db2 (some t) = none := by
  have hfe : db.users.find? (fun v => v.email == e) = some u :=
    ok_of_find_email hfind
  have hmem : u ∈ db.users := List.mem_of_find?_eq_some hfe
  have hidf : db.users.find? (fun v => v.id == u.id) = some u :=
    find_id_of_uniq hids hmem
  refine ⟨⟨db.users.map
      (fun v => if v.id == u.id then applyAssigns v [Assign.session_id (some t)] else v),
      db.next_id⟩,
    ⟨(db.users.map
      (fun v => if v.id == u.id then applyAssigns v [Assign.session_id (some t)] else v)).map
      (fun v => if v.id == u.id then applyAssigns v [Assign.session_id none] else v),
      db.next_id⟩,
    ?_, ?_, ?_, ?_⟩
  · have h1 : create_session db e t =
        (match update_user db u.id [Assign.session_id (some t)] with
          | (Except.ok _, db2) => (Except.ok (some t), db2)
          | (Except.error e2, db2) => (Except.error e2, db2)) := by
      unfold create_session
      rw [hfind]
    rw [@update_user_ok db u.id [Assign.session_id (some t)] u hidf rfl] at h1
    exact h1.trans rfl
  · rw [get_user_session_eq _ t ht]
    show (db.users.map
        (fun v => if v.id == u.id then applyAssigns v [Assign.session_id (some t)] else v)).find?
        (fun v => v.session_id == some t) = some { u with session_id := some t }
    rw [List.find?_map]
    have hcong : db.users.find?
        ((fun v => v.session_id == some t) ∘
          (fun v => if v.id == u.id then applyAssigns v [Assign.session_id (some t)] else v)) =
        db.users.find? (fun v => v.id == u.id) := by
      apply findq_congr_mem
      intro v hv
      by_cases hvid : v.id = u.id
      · simp [Function.comp, hvid, applyAssigns, setField]
      · simp [Function.comp, hvid, applyAssigns, setField, hfresh v hv]
    rw [hcong, hidf]
    simp [applyAssigns, setField]
  · have hpres1 : ∀ v : User,
        ((if v.id == u.id then applyAssigns v [Assign.session_id (some t)] else v).id ==
          u.id) = (v.id == u.id) := by
      intro v
      by_cases hvid : v.id = u.id <;> simp [hvid, applyAssigns, setField]
    have hfind1 : (⟨db.users.map
        (fun v => if v.id == u.id then applyAssigns v [Assign.session_id (some t)] else v),
        db.next_id⟩ : DBState).users.find? (fun v => v.id == u.id) =
        some (if u.id == u.id then applyAssigns u [Assign.session_id (some t)] else u) := by
      show (db.users.map
        (fun v => if v.id == u.id then applyAssigns v [Assign.session_id (some t)] else v)).find?
        (fun v => v.id == u.id) = _
      rw [find?_map_pres hpres1, hidf]
      rfl
    have hds : destroy_session ⟨db.users.map
        (fun v => if v.id == u.id then applyAssigns v [Assign.session_id (some t)] else v),
        db.next_id⟩ (some u.id) =
        update_user ⟨db.users.map
          (fun v => if v.id == u.id then applyAssigns v [Assign.session_id (some t)] else v),
          db.next_id⟩ u.id [Assign.session_id none] := by
      cases hn : u.id with
      | zero => exact absurd hn hid
      | succ m => rfl
    rw [hds, @update_user_ok _ u.id [Assign.session_id none] _ hfind1 rfl]
  · rw [get_user_session_eq _ t ht]
    rw [List.find?_eq_none]
    intro x hx
    simp only [List.mem_map] at hx
    obtain ⟨y, ⟨z, hz, hyz⟩, hxy⟩ := hx
    rw [← hxy, ← hyz]
    by_cases hzid : z.id = u.id
    · simp [hzid, applyAssigns, setField]
    · simp [hzid, applyAssigns, setField, hfresh z hz]

/-- Witness for C3: the full session round trip at a concrete one-account
store and the token `"tok"`. -/
theorem session_roundtrip_witness :
    ∃ db1 db2,
      create_session ⟨[⟨1, "a@b", hashpw "p" 0, none, none⟩], 2⟩ "a@b" "tok" =
        (.ok (some "tok"), db1) ∧
      get_user_from_session_id db1 (some "tok") =
        some ⟨1, "a@b", hashpw "p" 0, some "tok", none⟩ ∧
      destroy_session db1 (some 1) = (.ok (), db2) ∧
      get_user_from_session_id db2 (some "tok") = none :=
  session_roundtrip ⟨[⟨1, "a@b", hashpw "p" 0, none, none⟩], 2⟩ "a@b" "tok"
    ⟨1, "a@b", hashpw "p" 0, none, none⟩ rfl (by decide) (by decide)
    (by decide) (by decide)

/-- Claim C4: for a registered account (the one found by email lookup), with
unique row ids, a fresh reset token `t` and a new password different from the
old one, `get_reset_password_token` returns `t`; `update_password t new_p`
succeeds and in that same operation replaces the stored hash by the hash of
`new_p` and clears the reset token; afterwards `valid_login` is true with the
new password and false with the old one, and a second `update_password` with
the now-consumed `t` fails with the invalid-reset-token error, changing
nothing. -/
theorem password_reset_flow (db : DBState) (e t old_p new_p any_p : String)
    (u : User) (salt1 salt2 : Nat)
    (hfind : find_user_by db [Filter.email e] = .ok u)
    (hids : ∀ v ∈ db.users, ∀ w ∈ db.users, v.id = w.id → v = w)
    (hfresh : ∀ v ∈ db.users, v.reset_token ≠ some t)
    (hne : old_p ≠ new_p) :
    ∃ db1 db2,
      get_reset_password_token db e t = (.ok t, db1) ∧
      update_password db1 (some t) new_p salt2 = (.ok (), db2) ∧
      find_user_by db2 [Filter.email e] =
        .ok { u with hashed_password := hashpw new_p salt2, reset_token := none } ∧
      valid_login db2 e new_p = true ∧
      valid_login db2 e old_p = false ∧
      update_password db2 (some t) any_p salt1 =
        (.error (Err.valueError "Invalid reset token"), db2) := by
  have hfe : db.users.find? (fun v => v.email == e) = some u :=
    ok_of_find_email hfind
  have hmem : u ∈ db.users := List.mem_of_find?_eq_some hfe
  have hidf : db.users.find? (fun v => v.id == u.id) = some u :=
    find_id_of_uniq hids hmem
  have hpresE1 : ∀ v : User,
      ((if v.id == u.id then applyAssigns v [Assign.reset_token (some t)] else v).email ==
        e) = (v.email == e) := by
    intro v
    by_cases hvid : v.id = u.id <;> simp [hvid, applyAssigns, setField]
  have hpresE2 : ∀ v : User,
      ((if v.id == u.id then applyAssigns v
          [Assign.hashed_password (hashpw new_p salt2), Assign.reset_token none]
        else v).email == e) = (v.email == e) := by
    intro v
    by_cases hvid : v.id = u.id <;> simp [hvid, applyAssigns, setField]
  have hfem2 : ((db.users.map
      (fun v => if v.id == u.id then applyAssigns v [Assign.reset_token (some t)] else v)).map
      (fun v => if v.id == u.id then applyAssigns v
        [Assign.hashed_password (hashpw new_p salt2), Assign.reset_token none] else v)).find?
      (fun v => v.email == e) =
      some { u with hashed_password := hashpw new_p salt2, reset_token := none } := by
    rw [find?_map_pres hpresE2, find?_map_pres hpresE1, hfe]
    simp [applyAssigns, setField]
  refine ⟨⟨db.users.map
      (fun v => if v.id == u.id then applyAssigns v [Assign.reset_token (some t)] else v),
      db.next_id⟩,
    ⟨(db.users.map
      (fun v => if v.id == u.id then applyAssigns v [Assign.reset_token (some t)] else v)).map
      (fun v => if v.id == u.id then applyAssigns v
        [Assign.hashed_password (hashpw new_p salt2), Assign.reset_token none] else v),
      db.next_id⟩,
    ?_, ?_, ?_, ?_, ?_, ?_⟩
  · have h1 : get_reset_password_token db e t =
        (match update_user db u.id [Assign.reset_token (some t)] with
          | (Except.ok _, dbx) => (Except.ok t, dbx)
          | (Except.error e2, dbx) => (Except.error e2, dbx)) := by
      unfold get_reset_password_token
      rw [hfind]
    rw [@update_user_ok db u.id [Assign.reset_token (some t)] u hidf rfl] at h1
    exact h1.trans rfl
  · have hfindr1 : (⟨db.users.map
        (fun v => if v.id == u.id then applyAssigns v [Assign.reset_token (some t)] else v),
        db.next_id⟩ : DBState).users.find? (fun v => v.reset_token == some t) =
        some { u with reset_token := some t } := by
      show (db.users.map
        (fun v => if v.id == u.id then applyAssigns v [Assign.reset_token (some t)] else v)).find?
        (fun v => v.reset_token == some t) = _
      rw [List.find?_map]
      have hcong : db.users.find?
          ((fun v => v.reset_token == some t) ∘
            (fun v => if v.id == u.id then applyAssigns v [Assign.reset_token (some t)] else v)) =
          db.users.find? (fun v => v.id == u.id) := by
        apply findq_congr_mem
        intro v hv
        by_cases hvid : v.id = u.id
        · simp [Function.comp, hvid, applyAssigns, setField]
        · simp [Function.comp, hvid, applyAssigns, setField, hfresh v hv]
      rw [hcong, hidf]
      simp [applyAssigns, setField]
    have hfindid1 : (⟨db.users.map
        (fun v => if v.id == u.id then applyAssigns v [Assign.reset_token (some t)] else v),
        db.next_id⟩ : DBState).users.find? (fun v => v.id == u.id) =
        some (if u.id == u.id then applyAssigns u [Assign.reset_token (some t)] else u) := by
      show (db.users.map
        (fun v => if v.id == u.id then applyAssigns v [Assign.reset_token (some t)] else v)).find?
        (fun v => v.id == u.id) = _
      have hpres : ∀ v : User,
          ((if v.id == u.id then applyAssigns v [Assign.reset_token (some t)] else v).id ==
            u.id) = (v.id == u.id) := by
        intro v
        by_cases hvid : v.id = u.id <;> simp [hvid, applyAssigns, setField]
      rw [find?_map_pres hpres, hidf]
      rfl
    have h2 : update_password ⟨db.users.map
        (fun v => if v.id == u.id then applyAssigns v [Assign.reset_token (some t)] else v),
        db.next_id⟩ (some t) new_p salt2 =
        update_user ⟨db.users.map
          (fun v => if v.id == u.id then applyAssigns v [Assign.reset_token (some t)] else v),
          db.next_id⟩ u.id
          [Assign.hashed_password (hashpw new_p salt2), Assign.reset_token none] := by
      unfold update_password
      rw [find_user_by_reset, hfindr1]
      rfl
    rw [@update_user_ok _ u.id
      [Assign.hashed_password (hashpw new_p salt2), Assign.reset_token none] _
      hfindid1 rfl] at h2
    exact h2.trans rfl
  · rw [find_user_by_email]
    show optToRes (((db.users.map
      (fun v => if v.id == u.id then applyAssigns v [Assign.reset_token (some t)] else v)).map
      (fun v => if v.id == u.id then applyAssigns v
        [Assign.hashed_password (hashpw new_p salt2), Assign.reset_token none] else v)).find?
      (fun v => v.email == e)) = _
    rw [hfem2]
    rfl
  · unfold valid_login
    rw [find_user_by_email]
    show (match optToRes (((db.users.map
        (fun v => if v.id == u.id then applyAssigns v [Assign.reset_token (some t)] else v)).map
        (fun v => if v.id == u.id then applyAssigns v
          [Assign.hashed_password (hashpw new_p salt2), Assign.reset_token none] else v)).find?
        (fun v => v.email == e)) with
      | Except.ok w => checkpw new_p w.hashed_password
      | Except.error _ => false) = true
    rw [hfem2]
    simp [optToRes, checkpw, hashpw]
  · unfold valid_login
    rw [find_user_by_email]
    show (match optToRes (((db.users.map
        (fun v => if v.id == u.id then applyAssigns v [Assign.reset_token (some t)] else v)).map
        (fun v => if v.id == u.id then applyAssigns v
          [Assign.hashed_password (hashpw new_p salt2), Assign.reset_token none] else v)).find?
        (fun v => v.email == e)) with
      | Except.ok w => checkpw old_p w.hashed_password
      | Except.error _ => false) = false
    rw [hfem2]
    simp [optToRes, checkpw, hashpw, hne]
  · have hnone2 : (⟨(db.users.map
        (fun v => if v.id == u.id then applyAssigns v [Assign.reset_token (some t)] else v)).map
        (fun v => if v.id == u.id then applyAssigns v
          [Assign.hashed_password (hashpw new_p salt2), Assign.reset_token none] else v),
        db.next_id⟩ : DBState).users.find? (fun v => v.reset_token == some t) = none := by
      show ((db.users.map
        (fun v => if v.id == u.id then applyAssigns v [Assign.reset_token (some t)] else v)).map
        (fun v => if v.id == u.id then applyAssigns v
          [Assign.hashed_password (hashpw new_p salt2), Assign.reset_token none] else v)).find?
        (fun v => v.reset_token == some t) = none
      rw [List.find?_eq_none]
      intro x hx
      simp only [List.mem_map] at hx
      obtain ⟨y, ⟨z, hz, hyz⟩, hxy⟩ := hx
      rw [← hxy, ← hyz]
      by_cases hzid : z.id = u.id
      · simp [hzid, applyAssigns, setField]
      · simp [hzid, applyAssigns, setField, hfresh z hz]
    unfold update_password
    rw [find_user_by_reset, hnone2]
    rfl

/-- Witness for C4: the full reset flow at a concrete one-account store,
token `"tok"`, old password `"p"` and new password `"new"`. -/
theorem password_reset_flow_witness :
    ∃ db1 db2,
      get_reset_password_token ⟨[⟨1, "a@b", hashpw "p" 0, none, none⟩], 2⟩
        "a@b" "tok" = (.ok "tok", db1) ∧
      update_password db1 (some "tok") "new" 7 = (.ok (), db2) ∧
      find_user_by db2 [Filter.email "a@b"] =
        .ok ⟨1, "a@b", hashpw "new" 7, none, none⟩ ∧
      valid_login db2 "a@b" "new" = true ∧
      valid_login db2 "a@b" "p" = false ∧
      update_password db2 (some "tok") "x" 9 =
        (.error (Err.valueError "Invalid reset token"), db2) :=
  password_reset_flow ⟨[⟨1, "a@b", hashpw "p" 0, none, none⟩], 2⟩
    "a@b" "tok" "p" "new" "x" ⟨1, "a@b", hashpw "p" 0, none, none⟩ 9 7
    rfl (by decide) (by decide) (by decide)

end UserAuth
